import Mathlib

/- A verification development for the FEM elasticity element declared in
   multibody/fem/dev/elasticity_element.h. The repository contains only the
   header of the class, so every method body and every collaborator class
   (quadrature rule, isoparametric shape function, constitutive model, FEM
   state) is modelled from the written specification, as recorded in the doc
   comment of each definition. Scalars are kept in an abstract linearly
   ordered field so that every definition is executable over the rationals;
   the gradient statements are made over the reals. -/

namespace DrakeFem

open Matrix

/-- Modelled from the spec: the constitutive-model contract of section 4.5
(the class ConstitutiveModel is not under src). A material law maps a 3 by 3
deformation gradient to an elastic energy density (unit J per cubic meter)
and to a first Piola stress tensor (unit Pa). -/
structure ConstitutiveModel (K : Type) where
  EnergyDensity : Matrix (Fin 3) (Fin 3) K → K
  FirstPiolaStress : Matrix (Fin 3) (Fin 3) K → Matrix (Fin 3) (Fin 3) K

/-- Modelled from the spec: the quadrature rule together with the
isoparametric shape function evaluated at the quadrature points (section 6;
the classes Quadrature and IsoparametricElement are not under src), for a 3D
element of natural dimension 3 with n nodes and nq quadrature points.
weight q is the quadrature weight of point q, and dNdxi q is the matrix
whose row a is the gradient of the shape function of local node a with
respect to natural coordinates, evaluated at point q. This combines the data
of the source fields quadrature_ and shape_. -/
structure ShapeQuadrature (K : Type) (n nq : ℕ) where
  weight : Fin nq → K
  dNdxi : Fin nq → Matrix (Fin n) (Fin 3) K

/-- Modelled from the spec: the external state accessor of section 6 (the
class FemState is not under src); it provides the current position of every
global node. -/
structure FemState (K : Type) where
  positions : ℕ → Fin 3 → K

/-- The data of a constructed ElasticityElement, with the fields of the
source class: the global element index, the global node indices, the mass
density, the owned constitutive model, the quadrature and shape data, the
inverse reference Jacobian dxidX_ at each quadrature point, the reference
positions, and the reference volume at each quadrature point. -/
structure ElasticityElement (K : Type) (n nq : ℕ) where
  element_index : ℤ
  node_indices : List ℕ
  density_ : K
  constitutive_model_ : ConstitutiveModel K
  shape_quadrature : ShapeQuadrature K n nq
  dxidX_ : Fin nq → Matrix (Fin 3) (Fin 3) K
  reference_positions_ : Matrix (Fin 3) (Fin n) K
  reference_volume_ : Fin nq → K

variable {K : Type} [LinearOrderedField K] {n nq : ℕ}

/-- The determinant of a 3 by 3 matrix, written out by cofactor expansion so
that it evaluates by pure arithmetic. -/
def det3 (M : Matrix (Fin 3) (Fin 3) K) : K :=
  M 0 0 * (M 1 1 * M 2 2 - M 1 2 * M 2 1)
    - M 0 1 * (M 1 0 * M 2 2 - M 1 2 * M 2 0)
    + M 0 2 * (M 1 0 * M 2 1 - M 1 1 * M 2 0)

/-- The adjugate of a 3 by 3 matrix, written out entrywise. -/
def adj3 (M : Matrix (Fin 3) (Fin 3) K) : Matrix (Fin 3) (Fin 3) K :=
  !![M 1 1 * M 2 2 - M 1 2 * M 2 1, M 0 2 * M 2 1 - M 0 1 * M 2 2,
       M 0 1 * M 1 2 - M 0 2 * M 1 1;
     M 1 2 * M 2 0 - M 1 0 * M 2 2, M 0 0 * M 2 2 - M 0 2 * M 2 0,
       M 0 2 * M 1 0 - M 0 0 * M 1 2;
     M 1 0 * M 2 1 - M 1 1 * M 2 0, M 0 1 * M 2 0 - M 0 0 * M 2 1,
       M 0 0 * M 1 1 - M 0 1 * M 1 0]

/-- The inverse of a 3 by 3 matrix over a field, via the adjugate. -/
def inv3 (M : Matrix (Fin 3) (Fin 3) K) : Matrix (Fin 3) (Fin 3) K :=
  (det3 M)⁻¹ • adj3 M

/-- The 3 by n matrix whose column a is the a-th entry of the given list of
3-vectors (used to pass the reference positions, whose column count may
disagree with n before validation). -/
def gatherCols (n : ℕ) (cols : List (Fin 3 → K)) : Matrix (Fin 3) (Fin n) K :=
  Matrix.of fun i a => (cols.getD a.val fun _ => 0) i

/-- Modelled from the spec: the reference Jacobian at quadrature point q,
namely the reference position matrix times the shape gradient with respect
to natural coordinates at q (section 4.1). -/
def refJacobian (sq : ShapeQuadrature K n nq) (cols : List (Fin 3 → K))
    (q : Fin nq) : Matrix (Fin 3) (Fin 3) K :=
  gatherCols n cols * sq.dNdxi q

/-- The two construction-time failure kinds of section 7. -/
inductive ConstructionError where
  | preconditionViolation
  | geometryError
deriving DecidableEq

/-- Modelled from the spec: the ElasticityElement constructor (section 4.1;
its body is not under src). It fails with a precondition violation if the
element index is invalid (negative) or the node index count disagrees with
the shape function node count or with the reference position column count;
it fails with a geometry error if the reference Jacobian determinant at some
quadrature point is not strictly positive; otherwise it stores the inverse
Jacobians and the reference volumes (determinant times quadrature weight)
per quadrature point. The Except result models that a failed construction
produces no element. -/
def makeElasticityElement (sq : ShapeQuadrature K n nq) (element_index : ℤ)
    (node_indices : List ℕ) (density : K) (model : ConstitutiveModel K)
    (reference_positions : List (Fin 3 → K)) :
    Except ConstructionError (ElasticityElement K n nq) :=
  if 0 ≤ element_index ∧ node_indices.length = n ∧
      node_indices.length = reference_positions.length then
    if ∀ q : Fin nq, 0 < det3 (refJacobian sq reference_positions q) then
      Except.ok
        { element_index := element_index
          node_indices := node_indices
          density_ := density
          constitutive_model_ := model
          shape_quadrature := sq
          dxidX_ := fun q => inv3 (refJacobian sq reference_positions q)
          reference_positions_ := gatherCols n reference_positions
          reference_volume_ := fun q =>
            det3 (refJacobian sq reference_positions q) * sq.weight q }
    else Except.error ConstructionError.geometryError
  else Except.error ConstructionError.preconditionViolation

/-- Modelled from the spec: the gathered current nodal positions of the
element, one column per local node in node_indices order (section 4.2). -/
def localPositions (e : ElasticityElement K n nq) (s : FemState K) :
    Matrix (Fin 3) (Fin n) K :=
  Matrix.of fun i a => s.positions (e.node_indices.getD a.val 0) i

/-- The deformation gradient at quadrature point q as a function of the
gathered local position matrix x: F q = x times the natural shape gradient
at q times the stored inverse reference Jacobian at q (section 4.2). -/
def deformationGradientFromPositions (e : ElasticityElement K n nq)
    (x : Matrix (Fin 3) (Fin n) K) (q : Fin nq) : Matrix (Fin 3) (Fin 3) K :=
  x * e.shape_quadrature.dNdxi q * e.dxidX_ q

/-- Modelled from the spec: CalcDeformationGradient (section 4.2; its body
is not under src): the deformation gradient at every quadrature point,
evaluated at the current nodal positions read from the state. -/
def CalcDeformationGradient (e : ElasticityElement K n nq) (s : FemState K) :
    Fin nq → Matrix (Fin 3) (Fin 3) K :=
  fun q => deformationGradientFromPositions e (localPositions e s) q

/-- Modelled from the spec: CalcElasticEnergyDensity (its body is not under
src): the energy density of the constitutive model at the deformation
gradient of each quadrature point. -/
def CalcElasticEnergyDensity (e : ElasticityElement K n nq) (s : FemState K) :
    Fin nq → K :=
  fun q => e.constitutive_model_.EnergyDensity (CalcDeformationGradient e s q)

/-- Modelled from the spec: CalcFirstPiolaStress (its body is not under
src): the first Piola stress of the constitutive model at the deformation
gradient of each quadrature point. -/
def CalcFirstPiolaStress (e : ElasticityElement K n nq) (s : FemState K) :
    Fin nq → Matrix (Fin 3) (Fin 3) K :=
  fun q => e.constitutive_model_.FirstPiolaStress (CalcDeformationGradient e s q)

/-- Modelled from the spec: CalcElasticEnergy (section 4.3; its body is not
under src): the sum over quadrature points of energy density times reference
volume. -/
def CalcElasticEnergy (e : ElasticityElement K n nq) (s : FemState K) : K :=
  ∑ q, CalcElasticEnergyDensity e s q * e.reference_volume_ q

/-- The elastic energy as a function of the gathered local position matrix
(the same integral as CalcElasticEnergy, with the position matrix as the
free variable, used to state the gradient property). -/
def energyFromPositions (e : ElasticityElement K n nq)
    (x : Matrix (Fin 3) (Fin n) K) : K :=
  ∑ q, e.constitutive_model_.EnergyDensity (deformationGradientFromPositions e x q)
    * e.reference_volume_ q

/-- Modelled from the spec: the matrix whose row a is the gradient of the
shape function of local node a with respect to reference coordinates at
quadrature point q, obtained by mapping the natural gradient through the
stored inverse reference Jacobian (section 4.4). -/
def dNdX (e : ElasticityElement K n nq) (q : Fin nq) :
    Matrix (Fin n) (Fin 3) K :=
  e.shape_quadrature.dNdxi q * e.dxidX_ q

/-- Modelled from the spec: CalcNegativeElasticForce (section 4.4; its body
is not under src): for each local node a and component i, the sum over
quadrature points of the i-th component of the contribution of minus the
first Piola stress applied to the reference shape gradient of node a, times
the reference volume. -/
def CalcNegativeElasticForce (e : ElasticityElement K n nq) (s : FemState K) :
    Fin n → Fin 3 → K :=
  fun a i =>
    ∑ q, (-((CalcFirstPiolaStress e s q).mulVec (dNdX e q a))) i
      * e.reference_volume_ q

/-- Modelled from the spec: DoCalcResidual (section 4.4; its body is not
under src): the residual vector of size 3 times num_nodes, laid out in node
blocks of 3, filled from CalcNegativeElasticForce. -/
def DoCalcResidual (e : ElasticityElement K n nq) (s : FemState K) :
    Fin (3 * n) → K :=
  fun m =>
    CalcNegativeElasticForce e s
      ⟨m.val / 3, Nat.div_lt_of_lt_mul m.isLt⟩
      ⟨m.val % 3, Nat.mod_lt _ (by decide)⟩

/-- The Frobenius inner product of two 3 by 3 matrices, used to express the
gradient of the energy density with respect to the deformation gradient. -/
def frobInner (A B : Matrix (Fin 3) (Fin 3) K) : K :=
  ∑ j, ∑ k, A j k * B j k

/-- Extracts the stored density of a successful construction (0 on failure). -/
def getDensity (r : Except ConstructionError (ElasticityElement K n nq)) : K :=
  match r with
  | Except.ok e => e.density_
  | Except.error _ => 0

/-- Extracts a stored reference volume of a successful construction (37 on
failure, a junk value). -/
def refVolumeOr (r : Except ConstructionError (ElasticityElement K n nq))
    (q : Fin nq) : K :=
  match r with
  | Except.ok e => e.reference_volume_ q
  | Except.error _ => 37

/-- Shape gradients of the 4-node linear tetrahedron with respect to natural
coordinates (they are constant over the element), used as a concrete shape
function for witnesses. -/
def tetDNdxi : Matrix (Fin 4) (Fin 3) ℚ :=
  !![-1, -1, -1; 1, 0, 0; 0, 1, 0; 0, 0, 1]

/-- A constitutive model that is identically zero, used for witnesses. -/
def zeroModel : ConstitutiveModel ℚ :=
  ⟨fun _ => 0, fun _ => 0⟩

/-- A one-point quadrature on the tetrahedron with the standard weight 1/6,
together with the linear tetrahedron shape gradients. -/
def sqUnit : ShapeQuadrature ℚ 4 1 :=
  ⟨fun _ => 1 / 6, fun _ => tetDNdxi⟩

/-- A one-point quadrature whose weight is negative, together with the
linear tetrahedron shape gradients. The spec only requires quadrature
weights to be scalars. -/
def sqNeg : ShapeQuadrature ℚ 4 1 :=
  ⟨fun _ => -1, fun _ => tetDNdxi⟩

/-- The vertices of the unit simplex, the reference positions used for
witnesses. -/
def refSimplex : List (Fin 3 → ℚ) :=
  [![0, 0, 0], ![1, 0, 0], ![0, 1, 0], ![0, 0, 1]]

/-- The element that constructing a unit-simplex element with the one-point
quadrature sqUnit produces (spelled out as a structure literal, definitionally
equal to the successful result of makeElasticityElement). -/
def wElemQ : ElasticityElement ℚ 4 1 where
  element_index := 0
  node_indices := [0, 1, 2, 3]
  density_ := 1
  constitutive_model_ := zeroModel
  shape_quadrature := sqUnit
  dxidX_ := fun q => inv3 (refJacobian sqUnit refSimplex q)
  reference_positions_ := gatherCols 4 refSimplex
  reference_volume_ := fun q =>
    det3 (refJacobian sqUnit refSimplex q) * sqUnit.weight q

/-- The element that constructing a unit-simplex element with the
negative-weight quadrature sqNeg produces. -/
def cexElemQ : ElasticityElement ℚ 4 1 where
  element_index := 0
  node_indices := [0, 1, 2, 3]
  density_ := 1
  constitutive_model_ := zeroModel
  shape_quadrature := sqNeg
  dxidX_ := fun q => inv3 (refJacobian sqNeg refSimplex q)
  reference_positions_ := gatherCols 4 refSimplex
  reference_volume_ := fun q =>
    det3 (refJacobian sqNeg refSimplex q) * sqNeg.weight q

/-- A state whose positions at global nodes 0..3 are the unit-simplex
vertices, so that the current configuration of wElemQ equals its reference
configuration. -/
def stateRef : FemState ℚ :=
  ⟨fun k i => (refSimplex.getD k fun _ => 0) i⟩

/-- A concrete constitutive model over the reals whose energy density is the
sum of the entries of the deformation gradient and whose first Piola stress
is the all-ones matrix, so the stress is the gradient of the energy
density. -/
def linModel : ConstitutiveModel ℝ :=
  ⟨fun F => ∑ j, ∑ k, F j k, fun _ => Matrix.of fun _ _ => 1⟩

/-- A concrete one-node element over the reals, used as the witness input of
the gradient claim. -/
def eW : ElasticityElement ℝ 1 1 where
  element_index := 0
  node_indices := [0]
  density_ := 1
  constitutive_model_ := linModel
  shape_quadrature := ⟨fun _ => 1, fun _ => Matrix.of fun _ _ => 0⟩
  dxidX_ := fun _ => 1
  reference_positions_ := Matrix.of fun _ _ => 0
  reference_volume_ := fun _ => 1

/-- A concrete state over the reals with all positions at the origin. -/
def sW : FemState ℝ :=
  ⟨fun _ _ => 0⟩

/-- The explicit 3 by 3 determinant agrees with the Mathlib determinant. -/
theorem det3_eq_det (M : Matrix (Fin 3) (Fin 3) K) : det3 M = M.det := by
  rw [Matrix.det_fin_three]
  unfold det3
  ring

/-- The explicit adjugate satisfies the defining identity of the adjugate. -/
theorem mul_adj3 (M : Matrix (Fin 3) (Fin 3) K) :
    M * adj3 M = det3 M • (1 : Matrix (Fin 3) (Fin 3) K) := by
  ext i j
  fin_cases i <;> fin_cases j <;>
    simp [Matrix.mul_apply, adj3, det3, Fin.sum_univ_three, Matrix.one_apply,
      Matrix.smul_apply] <;>
    ring

/-- inv3 is a right inverse when the determinant does not vanish. -/
theorem mul_inv3 {M : Matrix (Fin 3) (Fin 3) K} (h : det3 M ≠ 0) :
    M * inv3 M = 1 := by
  unfold inv3
  rw [Matrix.mul_smul, mul_adj3, smul_smul, inv_mul_cancel₀ h, one_smul]

/-- Inversion of a successful construction: the preconditions and the
determinant positivity hold, and the element is exactly the record the
constructor stores. -/
theorem makeElasticityElement_ok (sq : ShapeQuadrature K n nq) {idx : ℤ}
    {ni : List ℕ} {ρ : K} {m : ConstitutiveModel K} {rp : List (Fin 3 → K)}
    {e : ElasticityElement K n nq}
    (h : makeElasticityElement sq idx ni ρ m rp = Except.ok e) :
    (0 ≤ idx ∧ ni.length = n ∧ ni.length = rp.length) ∧
      (∀ q, 0 < det3 (refJacobian sq rp q)) ∧
      e = { element_index := idx
            node_indices := ni
            density_ := ρ
            constitutive_model_ := m
            shape_quadrature := sq
            dxidX_ := fun q => inv3 (refJacobian sq rp q)
            reference_positions_ := gatherCols n rp
            reference_volume_ := fun q =>
              det3 (refJacobian sq rp q) * sq.weight q } := by
  unfold makeElasticityElement at h
  split_ifs at h with h1 h2
  injection h with h
  exact ⟨h1, h2, h.symm⟩

/-- The constructor succeeds, with the stored record, when all checks pass. -/
theorem makeElasticityElement_eq_ok (sq : ShapeQuadrature K n nq) (idx : ℤ)
    (ni : List ℕ) (ρ : K) (m : ConstitutiveModel K) (rp : List (Fin 3 → K))
    (h0 : 0 ≤ idx) (h1 : ni.length = n) (h2 : ni.length = rp.length)
    (hdet : ∀ q, 0 < det3 (refJacobian sq rp q)) :
    makeElasticityElement sq idx ni ρ m rp =
      Except.ok
        { element_index := idx
          node_indices := ni
          density_ := ρ
          constitutive_model_ := m
          shape_quadrature := sq
          dxidX_ := fun q => inv3 (refJacobian sq rp q)
          reference_positions_ := gatherCols n rp
          reference_volume_ := fun q =>
            det3 (refJacobian sq rp q) * sq.weight q } := by
  unfold makeElasticityElement
  rw [if_pos ⟨h0, h1, h2⟩, if_pos hdet]

/-- The gathered unit-simplex reference positions as a matrix literal. -/
theorem gatherCols_refSimplex :
    gatherCols 4 refSimplex = !![(0 : ℚ), 1, 0, 0; 0, 0, 1, 0; 0, 0, 0, 1] := by
  ext i a
  fin_cases i <;> fin_cases a <;> rfl

/-- The reference Jacobian of the unit simplex with the linear tetrahedron
shape gradients is the identity. -/
theorem jac_unit_tet :
    gatherCols 4 refSimplex * tetDNdxi = (1 : Matrix (Fin 3) (Fin 3) ℚ) := by
  rw [gatherCols_refSimplex]
  ext i j
  fin_cases i <;> fin_cases j <;>
    norm_num [Matrix.mul_apply, Fin.sum_univ_four, tetDNdxi, Matrix.one_apply,
      Fin.ext_iff, Matrix.vecHead, Matrix.vecTail]

/-- The determinant check passes for the unit-simplex fixtures (both
quadratures share the same shape gradients). -/
theorem det3_unit_tet (q : Fin 1) :
    det3 (refJacobian sqUnit refSimplex q) = 1 := by
  show det3 (gatherCols 4 refSimplex * tetDNdxi) = 1
  rw [jac_unit_tet, det3_eq_det, Matrix.det_one]

/-- The residual entry at flat index 3a + i is the negative elastic force
entry of local node a, component i. -/
theorem DoCalcResidual_entry (e : ElasticityElement K n nq) (s : FemState K)
    (a : Fin n) (i : Fin 3) (h : 3 * a.val + i.val < 3 * n) :
    DoCalcResidual e s ⟨3 * a.val + i.val, h⟩ =
      CalcNegativeElasticForce e s a i := by
  have hi := i.isLt
  refine congrArg₂ (CalcNegativeElasticForce e s) (Fin.ext ?_) (Fin.ext ?_)
  · show (3 * a.val + i.val) / 3 = a.val
    omega
  · show (3 * a.val + i.val) % 3 = i.val
    omega

/-- The elastic energy at a state is the position-matrix energy evaluated at
the gathered local positions. -/
theorem CalcElasticEnergy_eq_energyFromPositions (e : ElasticityElement K n nq)
    (s : FemState K) :
    CalcElasticEnergy e s = energyFromPositions e (localPositions e s) := rfl

/-- The Frobenius inner product of P with the product of a standard basis
matrix and M picks out row i of P against row a of M. -/
theorem frobInner_stdBasisMatrix_mul (P : Matrix (Fin 3) (Fin 3) K)
    (M : Matrix (Fin n) (Fin 3) K) (i : Fin 3) (a : Fin n) :
    frobInner P (Matrix.stdBasisMatrix i a (1 : K) * M) =
      ∑ k, P i k * M a k := by
  have happ : ∀ j k : Fin 3,
      (Matrix.stdBasisMatrix i a (1 : K) * M) j k =
        if j = i then M a k else 0 := by
    intro j k
    rw [Matrix.mul_apply]
    by_cases hj : j = i
    · subst hj
      rw [if_pos rfl, Finset.sum_eq_single a]
      · simp [Matrix.stdBasisMatrix]
      · intro b _ hb
        simp [Matrix.stdBasisMatrix, Ne.symm hb]
      · exact fun h => absurd (Finset.mem_univ a) h
    · rw [if_neg hj]
      apply Finset.sum_eq_zero
      intro b _
      have hc : ¬(i = j ∧ a = b) := fun hc => hj hc.1.symm
      simp only [Matrix.stdBasisMatrix, Matrix.of_apply, if_neg hc, zero_mul]
  calc frobInner P (Matrix.stdBasisMatrix i a (1 : K) * M)
      = ∑ j, ∑ k, P j k * if j = i then M a k else 0 :=
        Finset.sum_congr rfl fun j _ =>
          Finset.sum_congr rfl fun k _ => by rw [happ]
    _ = ∑ j, if j = i then ∑ k, P j k * M a k else 0 := by
        refine Finset.sum_congr rfl fun j _ => ?_
        by_cases hj : j = i
        · simp [hj]
        · simp [hj]
    _ = ∑ k, P i k * M a k := by
        rw [Finset.sum_ite_eq' Finset.univ i fun j => ∑ k, P j k * M a k]
        simp

/-- The concrete model linModel satisfies the stress/energy consistency
hypothesis: its first Piola stress is the gradient of its energy density. -/
theorem linModel_consistent :
    ∀ F H : Matrix (Fin 3) (Fin 3) ℝ,
      HasDerivAt (fun t : ℝ => linModel.EnergyDensity (F + t • H))
        (frobInner (linModel.FirstPiolaStress F) H) 0 := by
  intro F H
  have hf : (fun t : ℝ => linModel.EnergyDensity (F + t • H)) =
      fun t : ℝ => ∑ j : Fin 3, ∑ k : Fin 3, (F j k + t * H j k) := by
    funext t
    simp [linModel, Matrix.add_apply, Matrix.smul_apply, smul_eq_mul]
  have hv : frobInner (linModel.FirstPiolaStress F) H =
      ∑ j : Fin 3, ∑ k : Fin 3, H j k := by
    simp [frobInner, linModel]
  rw [hf, hv]
  apply HasDerivAt.sum
  intro j _
  apply HasDerivAt.sum
  intro k _
  simpa using ((hasDerivAt_id (0 : ℝ)).mul_const (H j k)).const_add (F j k)

/-- Claim C3: for every element and every state, CalcElasticEnergy returns
exactly the sum over all quadrature points q of the energy density of the
constitutive model at the deformation gradient of q, times the stored
reference volume of q. -/
theorem calcElasticEnergy_is_weighted_density_sum (e : ElasticityElement K n nq)
    (s : FemState K) :
    CalcElasticEnergy e s =
      ∑ q, e.constitutive_model_.EnergyDensity (CalcDeformationGradient e s q)
        * e.reference_volume_ q := rfl

/-- Claim C2: the vector produced by DoCalcResidual is laid out in node
blocks of 3 (the entry at flat index 3a + i belongs to local node a), and
the block of local node a is the sum over all quadrature points q of minus
the first Piola stress at the deformation gradient of q applied to the
reference shape gradient of node a (the natural gradient mapped through the
stored inverse reference Jacobian), times the reference volume of q. -/
theorem doCalcResidual_block_formula (e : ElasticityElement K n nq)
    (s : FemState K) (a : Fin n) (i : Fin 3) :
    DoCalcResidual e s
        ⟨3 * a.val + i.val, by have := a.isLt; have := i.isLt; omega⟩ =
      ∑ q, (-((e.constitutive_model_.FirstPiolaStress
              (CalcDeformationGradient e s q)).mulVec
            ((e.shape_quadrature.dNdxi q * e.dxidX_ q) a))) i
        * e.reference_volume_ q := by
  rw [DoCalcResidual_entry e s a i]
  rfl

/-- Claim C5: construction fails with a precondition violation if and only
if the node index count differs from the shape function node count, or from
the reference position column count, or the element index is invalid
(negative); no other input, in particular no density value, triggers a
precondition violation, and the Except result carries no element. -/
theorem make_preconditionViolation_iff (sq : ShapeQuadrature K n nq)
    (idx : ℤ) (ni : List ℕ) (ρ : K) (m : ConstitutiveModel K)
    (rp : List (Fin 3 → K)) :
    makeElasticityElement sq idx ni ρ m rp =
        Except.error ConstructionError.preconditionViolation ↔
      (ni.length ≠ n ∨ ni.length ≠ rp.length ∨ idx < 0) := by
  unfold makeElasticityElement
  split_ifs with h1 h2
  · constructor
    · intro h
      simp at h
    · intro hc
      exfalso
      obtain ⟨h0, hl, hr⟩ := h1
      rcases hc with hc | hc | hc
      · exact hc hl
      · exact hc hr
      · omega
  · constructor
    · intro h
      simp at h
    · intro hc
      exfalso
      obtain ⟨h0, hl, hr⟩ := h1
      rcases hc with hc | hc | hc
      · exact hc hl
      · exact hc hr
      · omega
  · constructor
    · intro _
      by_contra hc
      push_neg at hc
      exact h1 ⟨hc.2.2, hc.1, hc.2.1⟩
    · intro _
      rfl

/-- Claim C9: the elastic energy and the residual do not depend on the
stored mass density: an element whose density field is replaced by any other
value produces identical results at every state. -/
theorem energy_residual_density_invariant (e : ElasticityElement K n nq)
    (s : FemState K) (d : K) :
    CalcElasticEnergy { e with density_ := d } s = CalcElasticEnergy e s ∧
      DoCalcResidual { e with density_ := d } s = DoCalcResidual e s :=
  ⟨rfl, rfl⟩

/-- Claim C10: construction performs no validation of the density argument:
for every density value, including zero and negative values, construction
succeeds whenever the cardinality, element-index and determinant checks
pass, and the supplied value is stored unchanged. -/
theorem make_accepts_any_density (sq : ShapeQuadrature K n nq) (idx : ℤ)
    (ni : List ℕ) (m : ConstitutiveModel K) (rp : List (Fin 3 → K)) (ρ : K)
    (h0 : 0 ≤ idx) (h1 : ni.length = n) (h2 : ni.length = rp.length)
    (hdet : ∀ q, 0 < det3 (refJacobian sq rp q)) :
    (makeElasticityElement sq idx ni ρ m rp).isOk = true ∧
      getDensity (makeElasticityElement sq idx ni ρ m rp) = ρ := by
  rw [makeElasticityElement_eq_ok sq idx ni ρ m rp h0 h1 h2 hdet]
  exact ⟨rfl, rfl⟩

/-- Witness for claim C10: a concrete unit-simplex element accepts the
negative density -1 and stores it unchanged. -/
theorem make_accepts_any_density_witness :
    ((0 : ℤ) ≤ 0 ∧ ([0, 1, 2, 3] : List ℕ).length = 4 ∧
        ([0, 1, 2, 3] : List ℕ).length = refSimplex.length ∧
        ∀ q : Fin 1, 0 < det3 (refJacobian sqUnit refSimplex q)) ∧
      (makeElasticityElement sqUnit 0 [0, 1, 2, 3] (-1 : ℚ) zeroModel
          refSimplex).isOk = true ∧
      getDensity (makeElasticityElement sqUnit 0 [0, 1, 2, 3] (-1 : ℚ)
          zeroModel refSimplex) = -1 :=
  ⟨⟨le_refl 0, rfl, rfl, fun q => by rw [det3_unit_tet q]; exact one_pos⟩,
    make_accepts_any_density sqUnit 0 [0, 1, 2, 3] zeroModel refSimplex (-1)
      (le_refl 0) rfl rfl (fun q => by rw [det3_unit_tet q]; exact one_pos)⟩

/-- The determinant check also passes for the negative-weight fixture (the
weight does not enter the Jacobian). -/
theorem det3_neg_tet (q : Fin 1) :
    det3 (refJacobian sqNeg refSimplex q) = 1 := by
  show det3 (gatherCols 4 refSimplex * tetDNdxi) = 1
  rw [jac_unit_tet, det3_eq_det, Matrix.det_one]

/-- Constructing the unit-simplex element with sqUnit yields wElemQ. -/
theorem make_wElemQ :
    makeElasticityElement sqUnit 0 [0, 1, 2, 3] (1 : ℚ) zeroModel refSimplex =
      Except.ok wElemQ := by
  rw [makeElasticityElement_eq_ok sqUnit 0 [0, 1, 2, 3] (1 : ℚ) zeroModel
    refSimplex (le_refl 0) rfl rfl
    (fun q => by rw [det3_unit_tet q]; exact one_pos)]
  rfl

/-- At stateRef the gathered positions of wElemQ are its reference
positions. -/
theorem localPositions_wElemQ :
    localPositions wElemQ stateRef = wElemQ.reference_positions_ := by
  ext i a
  fin_cases a <;> rfl

/-- Claim C6 (amended): for every input whose cardinalities and element
index satisfy the preconditions, construction fails with a geometry error
exactly when the reference Jacobian determinant at some quadrature point is
non-positive; a successfully constructed element has strictly positive
determinant at every quadrature point, and its stored reference volume is
strictly positive at every quadrature point whose quadrature weight is
positive. -/
theorem make_geometryError_iff (sq : ShapeQuadrature K n nq) (idx : ℤ)
    (ni : List ℕ) (ρ : K) (m : ConstitutiveModel K) (rp : List (Fin 3 → K))
    (h0 : 0 ≤ idx) (h1 : ni.length = n) (h2 : ni.length = rp.length) :
    (makeElasticityElement sq idx ni ρ m rp =
        Except.error ConstructionError.geometryError ↔
      ∃ q, det3 (refJacobian sq rp q) ≤ 0) ∧
    ∀ e, makeElasticityElement sq idx ni ρ m rp = Except.ok e →
      ∀ q, 0 < det3 (refJacobian sq rp q) ∧
        (0 < sq.weight q → 0 < e.reference_volume_ q) := by
  constructor
  · unfold makeElasticityElement
    rw [if_pos ⟨h0, h1, h2⟩]
    split_ifs with hdet
    · constructor
      · intro h
        simp at h
      · rintro ⟨q, hq⟩
        exact absurd (hdet q) (not_lt.mpr hq)
    · constructor
      · intro _
        push_neg at hdet
        exact hdet
      · intro _
        rfl
  · intro e he q
    obtain ⟨-, hdet, rfl⟩ := makeElasticityElement_ok sq he
    exact ⟨hdet q, fun hw => mul_pos (hdet q) hw⟩

/-- Witness for the amended claim C6, at the unit-simplex fixture. -/
theorem make_geometryError_iff_witness :
    ((0 : ℤ) ≤ 0 ∧ ([0, 1, 2, 3] : List ℕ).length = 4 ∧
        ([0, 1, 2, 3] : List ℕ).length = refSimplex.length) ∧
    ((makeElasticityElement sqUnit 0 [0, 1, 2, 3] (1 : ℚ) zeroModel
          refSimplex =
        Except.error ConstructionError.geometryError ↔
      ∃ q, det3 (refJacobian sqUnit refSimplex q) ≤ 0) ∧
    ∀ e, makeElasticityElement sqUnit 0 [0, 1, 2, 3] (1 : ℚ) zeroModel
          refSimplex = Except.ok e →
      ∀ q, 0 < det3 (refJacobian sqUnit refSimplex q) ∧
        (0 < sqUnit.weight q → 0 < e.reference_volume_ q)) :=
  ⟨⟨le_refl 0, rfl, rfl⟩,
    make_geometryError_iff sqUnit 0 [0, 1, 2, 3] 1 zeroModel refSimplex
      (le_refl 0) rfl rfl⟩

/-- Counterexample to claim C6 as stated: with the negative-weight
quadrature sqNeg, a unit-simplex element is constructed successfully while
its stored reference volume at the only quadrature point is -1, which is not
strictly positive, even though the Jacobian determinant is 1. -/
theorem make_negative_reference_volume :
    (makeElasticityElement sqNeg 0 [0, 1, 2, 3] (1 : ℚ) zeroModel
        refSimplex).isOk = true ∧
    refVolumeOr (makeElasticityElement sqNeg 0 [0, 1, 2, 3] (1 : ℚ) zeroModel
        refSimplex) 0 = -1 ∧
    ¬ 0 < refVolumeOr (makeElasticityElement sqNeg 0 [0, 1, 2, 3] (1 : ℚ)
        zeroModel refSimplex) 0 := by
  have hmk := makeElasticityElement_eq_ok sqNeg 0 [0, 1, 2, 3] (1 : ℚ)
    zeroModel refSimplex (le_refl (0 : ℤ)) rfl rfl
    (fun q => by rw [det3_neg_tet q]; exact one_pos)
  have hval : refVolumeOr (makeElasticityElement sqNeg 0 [0, 1, 2, 3] (1 : ℚ)
      zeroModel refSimplex) 0 = -1 := by
    rw [hmk]
    simp only [refVolumeOr]
    rw [det3_neg_tet 0]
    norm_num [sqNeg]
  refine ⟨by rw [hmk]; rfl, hval, by rw [hval]; norm_num⟩

/-- Claim C7: for every constitutive model whose energy density and first
Piola stress vanish at the identity, and every successfully constructed
element, a state whose gathered current positions equal the reference
positions yields zero elastic energy and an all-zero residual vector of
length 3 times num_nodes. -/
theorem reference_state_zero_energy_residual (sq : ShapeQuadrature K n nq)
    {idx : ℤ} {ni : List ℕ} {ρ : K} {m : ConstitutiveModel K}
    {rp : List (Fin 3 → K)} {e : ElasticityElement K n nq}
    (hΨ : m.EnergyDensity 1 = 0) (hP : m.FirstPiolaStress 1 = 0)
    (hok : makeElasticityElement sq idx ni ρ m rp = Except.ok e)
    (s : FemState K) (hs : localPositions e s = e.reference_positions_) :
    CalcElasticEnergy e s = 0 ∧ ∀ j : Fin (3 * n), DoCalcResidual e s j = 0 := by
  obtain ⟨-, hdet, he⟩ := makeElasticityElement_ok sq hok
  have hmod : e.constitutive_model_ = m := by rw [he]
  have hF : ∀ q, CalcDeformationGradient e s q = 1 := by
    intro q
    show localPositions e s * e.shape_quadrature.dNdxi q * e.dxidX_ q = 1
    rw [hs, he]
    show refJacobian sq rp q * inv3 (refJacobian sq rp q) = 1
    exact mul_inv3 (ne_of_gt (hdet q))
  have hZ : ∀ (a : Fin n) (i : Fin 3), CalcNegativeElasticForce e s a i = 0 := by
    intro a i
    show (∑ q, (-((CalcFirstPiolaStress e s q).mulVec (dNdX e q a))) i
        * e.reference_volume_ q) = 0
    refine Finset.sum_eq_zero fun q _ => ?_
    have hP0 : CalcFirstPiolaStress e s q = 0 := by
      show e.constitutive_model_.FirstPiolaStress
          (CalcDeformationGradient e s q) = 0
      rw [hF q, hmod, hP]
    rw [hP0, Matrix.zero_mulVec, neg_zero]
    simp
  constructor
  · show (∑ q, CalcElasticEnergyDensity e s q * e.reference_volume_ q) = 0
    refine Finset.sum_eq_zero fun q _ => ?_
    show e.constitutive_model_.EnergyDensity (CalcDeformationGradient e s q)
        * e.reference_volume_ q = 0
    rw [hF q, hmod, hΨ, zero_mul]
  · intro j
    exact hZ _ _

/-- Witness for claim C7: the unit-simplex element with the zero model at
its reference configuration. -/
theorem reference_state_zero_energy_residual_witness :
    zeroModel.EnergyDensity 1 = 0 ∧ zeroModel.FirstPiolaStress 1 = 0 ∧
    (makeElasticityElement sqUnit 0 [0, 1, 2, 3] (1 : ℚ) zeroModel refSimplex =
      Except.ok wElemQ) ∧
    localPositions wElemQ stateRef = wElemQ.reference_positions_ ∧
    (CalcElasticEnergy wElemQ stateRef = 0 ∧
      ∀ j : Fin (3 * 4), DoCalcResidual wElemQ stateRef j = 0) :=
  ⟨rfl, rfl, make_wElemQ, localPositions_wElemQ,
    reference_state_zero_energy_residual sqUnit rfl rfl make_wElemQ stateRef
      localPositions_wElemQ⟩

/-- Claim C4: for a successfully constructed element, the deformation
gradient at every state and quadrature point equals the gathered current
position matrix (columns in node_indices order) times the natural shape
gradient at q times the inverse reference Jacobian precomputed at
construction for q. -/
theorem calcDeformationGradient_formula (sq : ShapeQuadrature K n nq)
    {idx : ℤ} {ni : List ℕ} {ρ : K} {m : ConstitutiveModel K}
    {rp : List (Fin 3 → K)} {e : ElasticityElement K n nq}
    (hok : makeElasticityElement sq idx ni ρ m rp = Except.ok e)
    (s : FemState K) (q : Fin nq) :
    CalcDeformationGradient e s q =
      localPositions e s * sq.dNdxi q * inv3 (refJacobian sq rp q) := by
  obtain ⟨-, -, rfl⟩ := makeElasticityElement_ok sq hok
  rfl

/-- Witness for claim C4 at the unit-simplex fixture. -/
theorem calcDeformationGradient_formula_witness :
    (makeElasticityElement sqUnit 0 [0, 1, 2, 3] (1 : ℚ) zeroModel refSimplex =
      Except.ok wElemQ) ∧
    CalcDeformationGradient wElemQ stateRef 0 =
      localPositions wElemQ stateRef * sqUnit.dNdxi 0 *
        inv3 (refJacobian sqUnit refSimplex 0) :=
  ⟨make_wElemQ, calcDeformationGradient_formula sqUnit make_wElemQ stateRef 0⟩

/-- Claim C1: for every element whose constitutive model has its first
Piola stress equal to the gradient of its energy density with respect to
the deformation gradient (stated directionally through the Frobenius inner
product), and for every state, the residual computed by DoCalcResidual is
the negative gradient of the elastic energy with respect to the gathered
nodal positions: perturbing the (i, a) position entry from the current
state, the energy (energyFromPositions, which agrees with CalcElasticEnergy
at the gathered positions) has derivative minus the corresponding residual
entry. -/
theorem residual_is_negative_energy_gradient {n nq : ℕ}
    (e : ElasticityElement ℝ n nq) (s : FemState ℝ)
    (hcons : ∀ F H : Matrix (Fin 3) (Fin 3) ℝ,
      HasDerivAt (fun t : ℝ => e.constitutive_model_.EnergyDensity (F + t • H))
        (frobInner (e.constitutive_model_.FirstPiolaStress F) H) 0)
    (a : Fin n) (i : Fin 3) :
    HasDerivAt
      (fun t : ℝ =>
        energyFromPositions e
          (localPositions e s + t • Matrix.stdBasisMatrix i a 1))
      (-(DoCalcResidual e s
          ⟨3 * a.val + i.val, by have := a.isLt; have := i.isLt; omega⟩)) 0 := by
  have key : ∀ q : Fin nq,
      HasDerivAt (fun t : ℝ =>
          e.constitutive_model_.EnergyDensity
            (deformationGradientFromPositions e
              (localPositions e s + t • Matrix.stdBasisMatrix i a 1) q)
            * e.reference_volume_ q)
        (frobInner
            (e.constitutive_model_.FirstPiolaStress
              (deformationGradientFromPositions e (localPositions e s) q))
            (Matrix.stdBasisMatrix i a (1 : ℝ) * e.shape_quadrature.dNdxi q
              * e.dxidX_ q)
          * e.reference_volume_ q) 0 := by
    intro q
    have h0 := (hcons
        (deformationGradientFromPositions e (localPositions e s) q)
        (Matrix.stdBasisMatrix i a (1 : ℝ) * e.shape_quadrature.dNdxi q
          * e.dxidX_ q)).mul_const (e.reference_volume_ q)
    have hfe : (fun t : ℝ =>
        e.constitutive_model_.EnergyDensity
          (deformationGradientFromPositions e (localPositions e s) q +
            t • (Matrix.stdBasisMatrix i a (1 : ℝ) * e.shape_quadrature.dNdxi q
              * e.dxidX_ q))
          * e.reference_volume_ q) =
        fun t : ℝ =>
          e.constitutive_model_.EnergyDensity
            (deformationGradientFromPositions e
              (localPositions e s + t • Matrix.stdBasisMatrix i a 1) q)
            * e.reference_volume_ q := by
      funext t
      simp only [deformationGradientFromPositions, Matrix.add_mul,
        Matrix.smul_mul]
    rwa [hfe] at h0
  have hsum := HasDerivAt.sum (u := Finset.univ) fun q _ => key q
  have hval :
      (∑ q, frobInner
          (e.constitutive_model_.FirstPiolaStress
            (deformationGradientFromPositions e (localPositions e s) q))
          (Matrix.stdBasisMatrix i a (1 : ℝ) * e.shape_quadrature.dNdxi q
            * e.dxidX_ q)
        * e.reference_volume_ q) =
      -(DoCalcResidual e s
        ⟨3 * a.val + i.val, by have := a.isLt; have := i.isLt; omega⟩) := by
    rw [DoCalcResidual_entry e s a i]
    show _ = -(∑ q, (-((CalcFirstPiolaStress e s q).mulVec (dNdX e q a))) i
      * e.reference_volume_ q)
    rw [← Finset.sum_neg_distrib]
    refine Finset.sum_congr rfl fun q _ => ?_
    rw [Matrix.mul_assoc, frobInner_stdBasisMatrix_mul]
    show (∑ k, (CalcFirstPiolaStress e s q) i k * (dNdX e q) a k)
        * e.reference_volume_ q = _
    simp only [Pi.neg_apply, neg_mul, neg_neg]
    rw [show ((CalcFirstPiolaStress e s q).mulVec (dNdX e q a)) i =
      ∑ k, (CalcFirstPiolaStress e s q) i k * (dNdX e q) a k from rfl]
  rw [← hval]
  exact hsum

/-- Witness for claim C1: the concrete real element eW with the consistent
model linModel, at node 0, component 0. -/
theorem residual_is_negative_energy_gradient_witness :
    (∀ F H : Matrix (Fin 3) (Fin 3) ℝ,
      HasDerivAt
        (fun t : ℝ => eW.constitutive_model_.EnergyDensity (F + t • H))
        (frobInner (eW.constitutive_model_.FirstPiolaStress F) H) 0) ∧
    HasDerivAt
      (fun t : ℝ =>
        energyFromPositions eW
          (localPositions eW sW + t • Matrix.stdBasisMatrix 0 0 1))
      (-(DoCalcResidual eW sW ⟨0, by omega⟩)) 0 :=
  ⟨linModel_consistent,
    residual_is_negative_energy_gradient eW sW linModel_consistent 0 0⟩

end DrakeFem
